import Mathlib

/-!
Shallow embedding of the typst CLI's file-and-resource substrate
(`cli/src/main.rs` together with the path utilities of `src/util/mod.rs`):
path identity resolution (`PathHash`, `slot`, `wslot`), the source cache
(`resolve`), write staging (`WriteBuffer`, `WriteStorage`), the flush step
(`write`), export (`export`), the watch-relevance classifier (`relevant`,
`dependant`) and the per-pass reset (`reset`).

The operating system is modelled explicitly: a filesystem `FS` maps
canonical paths to files carrying an inode number and byte contents, an
alias table stands for symlinks, and `hash128` over a `same_file::Handle`
(device and inode of the opened file) is modelled injectively by the
file's inode number.  Disk reads performed by `fs::read` are counted in
`readCount`, and disk writes performed by `fs::write` are logged in
`writes`.
-/

/-- One component of a filesystem path, mirroring `std::path::Component`. -/
inductive PathComp where
  | rootDir : PathComp
  | curDir : PathComp
  | parentDir : PathComp
  | normal : String → PathComp
deriving DecidableEq, Repr

/-- A path is its list of components (the model of `PathBuf`). -/
abbrev FPath := List PathComp

/-- `PathExt::normalize` from `src/util/mod.rs`: drop `.` components and
let a `..` cancel a preceding normal component. -/
def FPath.normalize (p : FPath) : FPath :=
  p.foldl
    (fun out c =>
      match c with
      | PathComp.curDir => out
      | PathComp.parentDir =>
        match out.getLast? with
        | some (PathComp.normal _) => out.dropLast
        | _ => out ++ [c]
      | _ => out ++ [c])
    []

/-- `Path::parent().is_some()`: every path except the empty path and the
bare root has a parent. -/
def FPath.hasParent (p : FPath) : Bool :=
  match p with
  | [] => false
  | [PathComp.rootDir] => false
  | _ => true

/-- The error taxonomy of `typst::diag::FileError` (payloads elided). -/
inductive FileError where
  | notFound : FileError
  | accessDenied : FileError
  | isDirectory : FileError
  | invalidUtf8 : FileError
  | wrongMode : FileError
  | other : FileError
deriving DecidableEq, Repr

/-- `err.to_string()` for a `FileError`. -/
def FileError.message : FileError → String
  | FileError.notFound => "file not found"
  | FileError.accessDenied => "failed to load file (access denied)"
  | FileError.isDirectory => "failed to load file (is a directory)"
  | FileError.invalidUtf8 => "file is not valid utf-8"
  | FileError.wrongMode => "file was accessed with the wrong mode"
  | FileError.other => "failed to load file"

/-- `typst::diag::FileResult`. -/
abbrev FileResult (α : Type) := Except FileError α

instance {ε α : Type} [DecidableEq ε] [DecidableEq α] : DecidableEq (Except ε α) :=
  fun a b =>
    match a, b with
    | Except.ok x, Except.ok y =>
      if h : x = y then Decidable.isTrue (by rw [h])
      else Decidable.isFalse (by intro hh; cases hh; exact h rfl)
    | Except.ok _, Except.error _ => Decidable.isFalse (by intro hh; cases hh)
    | Except.error _, Except.ok _ => Decidable.isFalse (by intro hh; cases hh)
    | Except.error x, Except.error y =>
      if h : x = y then Decidable.isTrue (by rw [h])
      else Decidable.isFalse (by intro hh; cases hh; exact h rfl)

/-- Association-list lookup (the model of `HashMap::get`). -/
def assocFind {α β : Type} [DecidableEq α] : List (α × β) → α → Option β
  | [], _ => none
  | (a, b) :: l, k => if a = k then some b else assocFind l k

/-- Association-list insert, replacing an existing binding for the key
(the model of `HashMap::insert`). -/
def assocInsert {α β : Type} [DecidableEq α] : List (α × β) → α → β → List (α × β)
  | [], k, v => [(k, v)]
  | (a, b) :: l, k, v =>
    if a = k then (k, v) :: l else (a, b) :: assocInsert l k v

/-- A file on disk: inode number and byte contents. -/
structure FSFile where
  ino : Nat
  data : List Nat
deriving DecidableEq, Repr

/-- The modelled operating-system state.  `files` is keyed by canonical
path; `aliases` sends alternative spellings (symlinks) to the canonical
path; `readCount` counts successful `fs::read` calls; `writes` logs every
`fs::write` call performed by the flush step. -/
structure FS where
  files : List (FPath × FSFile)
  aliases : List (FPath × FPath)
  nextIno : Nat
  readCount : Nat
  writes : List (FPath × List Nat)
deriving DecidableEq, Repr

/-- The canonical on-disk location a path spelling refers to. -/
def FS.target (fs : FS) (p : FPath) : FPath :=
  (assocFind fs.aliases p).getD (FPath.normalize p)

/-- `Path::canonicalize`: succeeds exactly when the referenced file
exists, returning its canonical path. -/
def FS.canonicalize (fs : FS) (p : FPath) : Option FPath :=
  match assocFind fs.files (FS.target fs p) with
  | some _ => some (FS.target fs p)
  | none => none

/-- `fs::read` (via the `read` helper of `main.rs`): return the bytes of
an existing file, counting the disk read; fail with `NotFound` otherwise. -/
def FS.read (fs : FS) (p : FPath) : FileResult (List Nat) × FS :=
  match assocFind fs.files (FS.target fs p) with
  | some f => (Except.ok f.data, { fs with readCount := fs.readCount + 1 })
  | none => (Except.error FileError.notFound, fs)

/-- `fs::write`: create or replace the file's contents and log the write. -/
def FS.writeDisk (fs : FS) (p : FPath) (d : List Nat) : FS :=
  match assocFind fs.files (FS.target fs p) with
  | some f =>
    { fs with
      files := assocInsert fs.files (FS.target fs p) ⟨f.ino, d⟩
      writes := fs.writes ++ [(p, d)] }
  | none =>
    { fs with
      files := assocInsert fs.files (FS.target fs p) ⟨fs.nextIno, d⟩
      nextIno := fs.nextIno + 1
      writes := fs.writes ++ [(p, d)] }

/-- `typst::util::AccessMode = Access<(), ()>`. -/
inductive AccessMode where
  | read : AccessMode
  | write : AccessMode
deriving DecidableEq, Repr

/-- `PathHash`: the 128-bit identity derived from the OS handle. -/
structure PathHash where
  val : Nat
deriving DecidableEq, Repr

/-- `PathHash::new`: under read intent open the existing file's handle;
under write intent create all missing parent directories, create or
truncate the file, and take its handle.  `hash128` over the handle's
device and inode pair is modelled injectively by the inode. -/
def PathHash.new (fs : FS) (p : FPath) (mode : AccessMode) :
    FileResult PathHash × FS :=
  match mode with
  | AccessMode.read =>
    match assocFind fs.files (FS.target fs p) with
    | some f => (Except.ok ⟨f.ino⟩, fs)
    | none => (Except.error FileError.notFound, fs)
  | AccessMode.write =>
    if FPath.hasParent p then
      match assocFind fs.files (FS.target fs p) with
      | some f =>
        (Except.ok ⟨f.ino⟩,
          { fs with files := assocInsert fs.files (FS.target fs p) ⟨f.ino, []⟩ })
      | none =>
        (Except.ok ⟨fs.nextIno⟩,
          { fs with
            files := assocInsert fs.files (FS.target fs p) ⟨fs.nextIno, []⟩
            nextIno := fs.nextIno + 1 })
    else (Except.error FileError.accessDenied, fs)

/-- `PathSlot`: the lazily initialized per-identity cells. -/
structure PathSlot where
  source : Option (FileResult Nat)
  buffer : Option (FileResult (List Nat))
deriving DecidableEq, Repr

/-- `WriteBuffer`: a `BTreeMap<u128, Vec<u8>>`, modelled as an
association list kept sorted by key. -/
abbrev WriteBuffer := List (Nat × List Nat)

/-- `BTreeMap::insert`: place the binding at its ordered position,
replacing an existing binding for the same key. -/
def btreeInsert {α : Type} : List (Nat × α) → Nat → α → List (Nat × α)
  | [], k, v => [(k, v)]
  | (a, x) :: l, k, v =>
    if k < a then (k, v) :: (a, x) :: l
    else if k = a then (k, v) :: l
    else (a, x) :: btreeInsert l k v

/-- `WriteBuffer::write`. -/
def WriteBuffer.write (b : WriteBuffer) (key : Nat) (d : List Nat) : WriteBuffer :=
  btreeInsert b key d

/-- `WriteBuffer::dump`: concatenate the payloads in the map's (ascending
key) iteration order. -/
def WriteBuffer.dump (b : WriteBuffer) : List Nat :=
  b.foldr (fun kv acc => kv.2 ++ acc) []

/-- `WriteBuffer::is_empty`. -/
def WriteBuffer.isEmpty (b : WriteBuffer) : Bool :=
  List.isEmpty b

/-- The sortedness invariant of the `BTreeMap` representation. -/
abbrev WriteBuffer.sortedKeys (b : WriteBuffer) : Prop :=
  List.Pairwise (fun x y => x.1 < y.1) b

/-- `WriteStorage`: a `HashMap<PathHash, WriteBuffer>`. -/
abbrev WriteStorage := List (PathHash × WriteBuffer)

/-- `WriteStorage::write`: get-or-default the identity's buffer and stage
the fragment there. -/
def WriteStorage.write (st : WriteStorage) (h : PathHash) (key : Nat)
    (d : List Nat) : WriteStorage :=
  match st with
  | [] => [(h, WriteBuffer.write [] key d)]
  | (h', b) :: rest =>
    if h' = h then (h', WriteBuffer.write b key d) :: rest
    else (h', b) :: WriteStorage.write rest h key d

/-- `WriteStorage::dump`. -/
def WriteStorage.dump (st : WriteStorage) : List (PathHash × WriteBuffer) :=
  st

/-- `FontSlot`: search path, face index, and the lazily parsed font
(`OnceCell<Option<Font>>`, the font object abstracted to a number). -/
structure FontSlot where
  path : FPath
  index : Nat
  font : Option (Option Nat)
deriving DecidableEq, Repr

/-- One entry of the decoded source arena (`typst::syntax::Source`):
sequential id, canonical path, and the decoded text as a list of Unicode
code points. -/
structure SourceFile where
  id : Nat
  path : FPath
  text : List Nat
deriving DecidableEq, Repr

/-- `SystemWorld`: the caches and state of one compilation session. -/
structure SystemWorld where
  hashes : List (FPath × FileResult PathHash)
  paths : List (PathHash × PathSlot)
  wpaths : WriteStorage
  sources : List SourceFile
  today : Option Nat
  main : Nat
  fonts : List FontSlot
deriving DecidableEq, Repr

/-- Strict UTF-8 decoding (`std::str::from_utf8`): reject stray
continuation bytes, overlong encodings, surrogates, and code points above
`0x10FFFF`; return the decoded code points. -/
def utf8Decode : List Nat → Option (List Nat)
  | [] => some []
  | b :: l =>
    if b < 0x80 then (utf8Decode l).map (fun t => b :: t)
    else if b < 0xC2 then none
    else if b < 0xE0 then
      match l with
      | b1 :: l' =>
        if 0x80 ≤ b1 ∧ b1 < 0xC0 then
          (utf8Decode l').map (fun t => ((b - 0xC0) * 64 + (b1 - 0x80)) :: t)
        else none
      | [] => none
    else if b < 0xF0 then
      match l with
      | b1 :: b2 :: l' =>
        if (0x80 ≤ b1 ∧ b1 < 0xC0) ∧ (0x80 ≤ b2 ∧ b2 < 0xC0)
            ∧ (b = 0xE0 → 0xA0 ≤ b1) ∧ (b = 0xED → b1 < 0xA0) then
          (utf8Decode l').map
            (fun t => ((b - 0xE0) * 4096 + (b1 - 0x80) * 64 + (b2 - 0x80)) :: t)
        else none
      | _ => none
    else if b < 0xF5 then
      match l with
      | b1 :: b2 :: b3 :: l' =>
        if (0x80 ≤ b1 ∧ b1 < 0xC0) ∧ (0x80 ≤ b2 ∧ b2 < 0xC0)
            ∧ (0x80 ≤ b3 ∧ b3 < 0xC0)
            ∧ (b = 0xF0 → 0x90 ≤ b1) ∧ (b = 0xF4 → b1 < 0x90) then
          (utf8Decode l').map
            (fun t =>
              ((b - 0xF0) * 262144 + (b1 - 0x80) * 4096 + (b2 - 0x80) * 64
                + (b3 - 0x80)) :: t)
        else none
      | _ => none
    else none

/-- `buf.starts_with(b"\xef\xbb\xbf")`: strip a leading UTF-8 BOM. -/
def bomStrip (buf : List Nat) : List Nat :=
  if buf.take 3 = [0xEF, 0xBB, 0xBF] then buf.drop 3 else buf

/-- `paths.entry(hash).or_default()`. -/
def entryOrDefault (paths : List (PathHash × PathSlot)) (h : PathHash) :
    List (PathHash × PathSlot) :=
  match assocFind paths h with
  | some _ => paths
  | none => (h, ⟨none, none⟩) :: paths

/-- Store a result in the `source` cell of the identity's slot. -/
def setSlotSource (paths : List (PathHash × PathSlot)) (h : PathHash)
    (r : FileResult Nat) : List (PathHash × PathSlot) :=
  match paths with
  | [] => []
  | (a, s) :: l =>
    if a = h then (a, { s with source := some r }) :: l
    else (a, s) :: setSlotSource l h r

/-- `setSlotSource` lifted to the world. -/
def SystemWorld.setSource (w : SystemWorld) (h : PathHash) (r : FileResult Nat) :
    SystemWorld :=
  { w with paths := setSlotSource w.paths h r }

/-- `SystemWorld::slot`: read-intent identity resolution with caching by
raw path and by canonicalized-then-normalized path, plus get-or-default of
the identity's `PathSlot`. -/
def SystemWorld.slot (w : SystemWorld) (fs : FS) (p : FPath) :
    FileResult PathHash × SystemWorld × FS :=
  match assocFind w.hashes p with
  | some (Except.ok h) => (Except.ok h, { w with paths := entryOrDefault w.paths h }, fs)
  | some (Except.error e) => (Except.error e, w, fs)
  | none =>
    let hfs := PathHash.new fs p AccessMode.read
    let h1 :=
      match FS.canonicalize hfs.2 p with
      | some c => assocInsert w.hashes (FPath.normalize c) hfs.1
      | none => w.hashes
    let h2 := assocInsert h1 p hfs.1
    match hfs.1 with
    | Except.ok h =>
      (Except.ok h, { w with hashes := h2, paths := entryOrDefault w.paths h }, hfs.2)
    | Except.error e => (Except.error e, { w with hashes := h2 }, hfs.2)

/-- `SystemWorld::wslot`: write-intent identity resolution; consults the
same path-keyed cache and only on a miss performs the destructive
`PathHash::new(_, W)`. -/
def SystemWorld.wslot (w : SystemWorld) (fs : FS) (p : FPath) :
    FileResult PathHash × SystemWorld × FS :=
  match assocFind w.hashes p with
  | some r => (r, w, fs)
  | none =>
    let hfs := PathHash.new fs p AccessMode.write
    let h1 :=
      match FS.canonicalize hfs.2 p with
      | some c => assocInsert w.hashes (FPath.normalize c) hfs.1
      | none => w.hashes
    let h2 := assocInsert h1 p hfs.1
    (hfs.1, { w with hashes := h2 }, hfs.2)

/-- `SystemWorld::insert`: allocate the next sequential id (truncated to
`u16` as by `SourceId::from_u16(len as u16)`) and push the source. -/
def SystemWorld.insert (w : SystemWorld) (p : FPath) (text : List Nat) :
    Nat × SystemWorld :=
  let id := w.sources.length % 65536
  (id, { w with sources := w.sources ++ [⟨id, p, text⟩] })

/-- `SystemWorld::resolve` (the spec's `resolve_source`): resolve the
read-intent identity, then get-or-init the `source` cell by
canonicalizing, reading the file, stripping a leading BOM, validating
UTF-8 and inserting into the source arena. -/
def SystemWorld.resolve (w : SystemWorld) (fs : FS) (p : FPath) :
    FileResult Nat × SystemWorld × FS :=
  match SystemWorld.slot w fs p with
  | (Except.error e, w1, fs1) => (Except.error e, w1, fs1)
  | (Except.ok h, w1, fs1) =>
    match ((assocFind w1.paths h).getD ⟨none, none⟩).source with
    | some cached => (cached, w1, fs1)
    | none =>
      match FS.canonicalize fs1 p with
      | none =>
        (Except.error FileError.notFound,
          SystemWorld.setSource w1 h (Except.error FileError.notFound), fs1)
      | some cpath =>
        match FS.read fs1 cpath with
        | (Except.error e, fs2) =>
          (Except.error e, SystemWorld.setSource w1 h (Except.error e), fs2)
        | (Except.ok buf, fs2) =>
          match utf8Decode (bomStrip buf) with
          | none =>
            (Except.error FileError.invalidUtf8,
              SystemWorld.setSource w1 h (Except.error FileError.invalidUtf8), fs2)
          | some text =>
            let idw := SystemWorld.insert w1 cpath text
            (Except.ok idw.1, SystemWorld.setSource idw.2 h (Except.ok idw.1), fs2)

/-- `World::write`: resolve the write-intent identity and stage the
fragment in that identity's buffer. -/
def SystemWorld.write (w : SystemWorld) (fs : FS) (p : FPath) (key : Nat)
    (d : List Nat) : FileResult Unit × SystemWorld × FS :=
  match SystemWorld.wslot w fs p with
  | (Except.error e, w1, fs1) => (Except.error e, w1, fs1)
  | (Except.ok h, w1, fs1) =>
    (Except.ok (), { w1 with wpaths := WriteStorage.write w1.wpaths h key d }, fs1)

/-- `SystemWorld::reset`: clear the source arena, the identity cache, the
slot map and the cached today value. -/
def SystemWorld.reset (w : SystemWorld) : SystemWorld :=
  { w with sources := [], hashes := [], paths := [], today := none }

/-- `SystemWorld::dependant`: a path is tracked if its normalized form is
a key of the identity cache, or if re-deriving its read-intent identity
succeeds and that identity is a key of the slot map. -/
def SystemWorld.dependant (w : SystemWorld) (fs : FS) (p : FPath) : Bool :=
  (assocFind w.hashes (FPath.normalize p)).isSome
    || (match (PathHash.new fs p AccessMode.read).1 with
        | Except.ok h => (assocFind w.paths h).isSome
        | Except.error _ => false)

/-- `notify::event::ModifyKind`. -/
inductive ModifyKind where
  | any : ModifyKind
  | data : ModifyKind
  | metadata : ModifyKind
  | name : ModifyKind
  | other : ModifyKind
deriving DecidableEq, Repr

/-- `notify::EventKind` (inner detail of each kind elided). -/
inductive FsEventKind where
  | any : FsEventKind
  | access : FsEventKind
  | create : FsEventKind
  | modify : ModifyKind → FsEventKind
  | remove : FsEventKind
  | other : FsEventKind
deriving DecidableEq, Repr

/-- A `notify::Event`: kind plus affected paths. -/
structure FsEvent where
  kind : FsEventKind
  paths : List FPath
deriving DecidableEq, Repr

/-- `SystemWorld::relevant`: classify by kind first, falling through to
the per-path dependency check. -/
def SystemWorld.relevant (w : SystemWorld) (fs : FS) (e : FsEvent) : Bool :=
  match e.kind with
  | FsEventKind.any => e.paths.any (SystemWorld.dependant w fs)
  | FsEventKind.access => false
  | FsEventKind.create => true
  | FsEventKind.modify ModifyKind.any => e.paths.any (SystemWorld.dependant w fs)
  | FsEventKind.modify ModifyKind.data => e.paths.any (SystemWorld.dependant w fs)
  | FsEventKind.modify ModifyKind.metadata => false
  | FsEventKind.modify ModifyKind.name => true
  | FsEventKind.modify ModifyKind.other => false
  | FsEventKind.remove => e.paths.any (SystemWorld.dependant w fs)
  | FsEventKind.other => false

/-- The `hashes.iter().find(..)` of the flush step: some path whose cache
entry succeeded with exactly this identity. -/
def findPathFor : List (FPath × FileResult PathHash) → PathHash → Option FPath
  | [], _ => none
  | (p, v) :: rest, h =>
    match v with
    | Except.ok h' => if h' = h then some p else findPathFor rest h
    | Except.error _ => findPathFor rest h

/-- The loop body of the flush step `write(world)`. -/
def flushGo (hashes : List (FPath × FileResult PathHash)) :
    List (PathHash × WriteBuffer) → FS → FS
  | [], fs => fs
  | (h, s) :: rest, fs =>
    match findPathFor hashes h with
    | some p =>
      if WriteBuffer.isEmpty s then flushGo hashes rest fs
      else flushGo hashes rest (FS.writeDisk fs p (WriteBuffer.dump s))
    | none => flushGo hashes rest fs

/-- The free function `write(world)` of `main.rs`: for every staged
identity, look up a successfully cached path for it and, if the buffer is
non-empty, write the concatenated fragments to disk. -/
def write (w : SystemWorld) (fs : FS) : FS :=
  flushGo w.hashes (WriteStorage.dump w.wpaths) fs

/-- A rendered page (`typst::doc::Frame`), abstracted. -/
abbrev PageFrame := Nat

/-- ASCII lower-casing of one character (`eq_ignore_ascii_case`). -/
def charLower (c : Char) : Char :=
  if 'A' ≤ c ∧ c ≤ 'Z' then Char.ofNat (c.toNat + 32) else c

/-- ASCII lower-casing of a string. -/
def lowerStr (s : String) : String :=
  String.mk (s.data.map charLower)

/-- Take characters of a reversed path until a separator is hit. -/
def takeUntil (stop : Char) : List Char → List Char
  | [] => []
  | c :: rest => if c = stop then [] else c :: takeUntil stop rest

/-- `Path::extension` on the reversed file name: `none` when there is no
dot or when the only dot leads a hidden file name. -/
def extAux (revName : List Char) : Option (List Char) :=
  let extRev := takeUntil '.' revName
  if extRev.length = revName.length then none
  else if revName.drop (extRev.length + 1) = [] then none
  else some extRev

/-- `Path::extension` for a path given as a string. -/
def pathExtension (s : String) : Option String :=
  (extAux (takeUntil '/' s.data.reverse)).map (fun l => String.mk l.reverse)

/-- If the pattern is a prefix of the list, return the remainder. -/
def dropPat : List Char → List Char → Option (List Char)
  | [], l => some l
  | _ :: _, [] => none
  | p :: ps, c :: cs => if p = c then dropPat ps cs else none

/-- `str::contains` for a literal pattern. -/
def hasPatGo (pat : List Char) : List Char → Bool
  | [] => (dropPat pat []).isSome
  | c :: rest => (dropPat pat (c :: rest)).isSome || hasPatGo pat rest

/-- `str::contains` lifted to strings. -/
def strContainsPat (s pat : String) : Bool :=
  hasPatGo pat.data s.data

/-- `str::replace`: replace non-overlapping occurrences left to right
(fuelled by the input length, which bounds the number of steps). -/
def replaceAllGo (pat repl : List Char) : Nat → List Char → List Char
  | 0, l => l
  | _ + 1, [] => []
  | fuel + 1, c :: rest =>
    match dropPat pat (c :: rest) with
    | some rem => repl ++ replaceAllGo pat repl fuel rem
    | none => c :: replaceAllGo pat repl fuel rest

/-- `str::replace` lifted to strings. -/
def strReplace (s pat repl : String) : String :=
  String.mk (replaceAllGo pat.data repl.data s.data.length s.data)

/-- Little-endian decimal digits, fuelled so the kernel can evaluate it. -/
def decDigitsGo : Nat → Nat → List Nat
  | _, 0 => []
  | 0, _ + 1 => []
  | fuel + 1, m + 1 => ((m + 1) % 10) :: decDigitsGo fuel ((m + 1) / 10)

/-- Little-endian decimal digits of a number. -/
def decDigits (n : Nat) : List Nat :=
  decDigitsGo n n

/-- `usize::checked_ilog10`. -/
def checkedIlog10 (n : Nat) : Option Nat :=
  if n = 0 then none else some ((decDigits n).length - 1)

/-- The decimal rendering of a number. -/
def decStr (n : Nat) : String :=
  String.mk ((decDigits n).reverse.map (fun d => Char.ofNat (48 + d)))

/-- Zero padding as by the format specifier of the export loop. -/
def zeroPad (n width : Nat) : String :=
  String.mk (List.replicate (width - (decStr n).length) '0' ++ (decStr n).data)

/-- The page loop of `export`: render each page and pair it with its
output path (numbered when the path carries the placeholder). -/
def exportLoop (outStr : String) (numbered : Bool) (width : Nat)
    (render : PageFrame → List Nat) : Nat → List PageFrame → List (String × List Nat)
  | _, [] => []
  | i, f :: rest =>
    (if numbered then strReplace outStr "{n}" (zeroPad (i + 1) width) else outStr,
        render f)
      :: exportLoop outStr numbered width render (i + 1) rest

/-- `export`: raster export when the extension is `png` (case
insensitively), requiring the `\x7bn\x7d` placeholder for more than one
page; PDF export otherwise.  The result lists the files written. -/
def exportDoc (pages : List PageFrame) (output : String)
    (render : PageFrame → List Nat) (pdf : List PageFrame → List Nat) :
    Except String (List (String × List Nat)) :=
  match pathExtension output with
  | some ext =>
    if lowerStr ext = "png" then
      let numbered := strContainsPat output "{n}"
      if ¬numbered ∧ pages.length > 1 then
        Except.error "cannot export multiple PNGs without `{n}` in output path"
      else
        let width := 1 + (checkedIlog10 pages.length).getD 0
        Except.ok (exportLoop output numbered width render 0 pages)
    else Except.ok [(output, pdf pages)]
  | none => Except.ok [(output, pdf pages)]

/-- `compile_once`: reset the world, resolve the main input, run the
compiler; on success export the document and flush the staged writes, on
diagnostic errors report failure without exporting or flushing. -/
def compileOnce
    (compile : SystemWorld → FS → (Except (List Nat) (List PageFrame)) × SystemWorld × FS)
    (input : FPath) (output : String) (render : PageFrame → List Nat)
    (pdf : List PageFrame → List Nat) (w : SystemWorld) (fs : FS) :
    Except String Bool × SystemWorld × FS × List (String × List Nat) :=
  let w0 := SystemWorld.reset w
  match SystemWorld.resolve w0 fs input with
  | (Except.error e, w1, fs1) => (Except.error (FileError.message e), w1, fs1, [])
  | (Except.ok id, w1, fs1) =>
    let w2 := { w1 with main := id }
    match compile w2 fs1 with
    | (Except.error _, w3, fs3) => (Except.ok false, w3, fs3, [])
    | (Except.ok doc, w3, fs3) =>
      match exportDoc doc output render pdf with
      | Except.error msg => (Except.error msg, w3, fs3, [])
      | Except.ok outs => (Except.ok true, w3, write w3 fs3, outs)

/-- Sample path: `/a/m.typ`, already normalized and canonical. -/
def paM : FPath := [PathComp.rootDir, PathComp.normal "a", PathComp.normal "m.typ"]

/-- Sample path spelled with a `.` component: `/./x`. -/
def paRaw : FPath := [PathComp.rootDir, PathComp.curDir, PathComp.normal "x"]

/-- A filesystem holding `/a/m.typ` with a BOM followed by `"hi"`. -/
def fsM : FS := ⟨[(paM, ⟨0, [0xEF, 0xBB, 0xBF, 104, 105]⟩)], [], 1, 0, []⟩

/-- A filesystem holding `/a/m.typ` with one content byte. -/
def fsB : FS := ⟨[(paM, ⟨0, [1]⟩)], [], 1, 0, []⟩

/-- A filesystem holding `/a/m.typ` with bytes that are not UTF-8. -/
def fsBad : FS := ⟨[(paM, ⟨0, [255]⟩)], [], 1, 0, []⟩

/-- An empty filesystem. -/
def fsNone : FS := ⟨[], [], 0, 0, []⟩

/-- A freshly constructed world with empty caches. -/
def wEmpty : SystemWorld := ⟨[], [], [], [], none, 0, []⟩

/-- A world whose identity cache holds a cached failure under the raw
spelling `/./x` only. -/
def wRawErr : SystemWorld :=
  { wEmpty with hashes := [(paRaw, Except.error FileError.notFound)] }

/-- A world carrying a stale staged buffer for an identity that no cache
entry of the current pass resolves to. -/
def wStale : SystemWorld :=
  { wEmpty with wpaths := [(⟨5⟩, [(1, [7])])] }


theorem assocFind_assocInsert_self {α β : Type} [DecidableEq α]
    (l : List (α × β)) (k : α) (v : β) :
    assocFind (assocInsert l k v) k = some v := by
  induction l with
  | nil => simp [assocInsert, assocFind]
  | cons hd tl ih =>
    obtain ⟨a, b⟩ := hd
    by_cases h : a = k
    · simp [assocInsert, assocFind, h]
    · simp [assocInsert, assocFind, h, ih]

theorem assocFind_assocInsert_ne {α β : Type} [DecidableEq α]
    (l : List (α × β)) (k k' : α) (v : β) (hne : k' ≠ k) :
    assocFind (assocInsert l k v) k' = assocFind l k' := by
  have hkk : ¬k = k' := fun h => hne h.symm
  induction l with
  | nil => simp [assocInsert, assocFind, hkk]
  | cons hd tl ih =>
    obtain ⟨a, b⟩ := hd
    by_cases h : a = k
    · subst h
      simp [assocInsert, assocFind, hkk]
    · simp only [assocInsert, if_neg h, assocFind]
      by_cases h2 : a = k'
      · simp [h2]
      · simp [h2, ih]

theorem mem_btreeInsert {α : Type} {y : Nat × α} {l : List (Nat × α)}
    {k : Nat} {v : α} (h : y ∈ btreeInsert l k v) : y = (k, v) ∨ y ∈ l := by
  induction l with
  | nil => simpa [btreeInsert] using h
  | cons hd tl ih =>
    obtain ⟨a, x⟩ := hd
    by_cases h1 : k < a
    · simp only [btreeInsert, if_pos h1] at h
      exact List.mem_cons.mp h
    · by_cases h2 : k = a
      · simp only [btreeInsert, if_neg h1, if_pos h2] at h
        rcases List.mem_cons.mp h with h | h
        · exact Or.inl h
        · exact Or.inr (List.mem_cons.mpr (Or.inr h))
      · simp only [btreeInsert, if_neg h1, if_neg h2] at h
        rcases List.mem_cons.mp h with h | h
        · exact Or.inr (List.mem_cons.mpr (Or.inl h))
        · rcases ih h with h | h
          · exact Or.inl h
          · exact Or.inr (List.mem_cons.mpr (Or.inr h))

theorem btreeInsert_sorted {α : Type} {l : List (Nat × α)} {k : Nat} {v : α}
    (h : List.Pairwise (fun x y => x.1 < y.1) l) :
    List.Pairwise (fun x y => x.1 < y.1) (btreeInsert l k v) := by
  induction l with
  | nil => simp [btreeInsert]
  | cons hd tl ih =>
    obtain ⟨a, x⟩ := hd
    rw [List.pairwise_cons] at h
    obtain ⟨ha, htl⟩ := h
    by_cases h1 : k < a
    · simp only [btreeInsert, if_pos h1]
      refine List.Pairwise.cons ?_ (List.Pairwise.cons ha htl)
      intro y hy
      rcases List.mem_cons.mp hy with hy | hy
      · subst hy; exact h1
      · exact lt_trans h1 (ha y hy)
    · by_cases h2 : k = a
      · simp only [btreeInsert, if_neg h1, if_pos h2]
        refine List.Pairwise.cons ?_ htl
        intro y hy
        have := ha y hy
        show k < y.1
        omega
      · simp only [btreeInsert, if_neg h1, if_neg h2]
        refine List.Pairwise.cons ?_ (ih htl)
        intro y hy
        rcases mem_btreeInsert hy with hy | hy
        · subst hy
          show a < k
          omega
        · exact ha y hy

theorem assocFind_btreeInsert_self {α : Type} (l : List (Nat × α)) (k : Nat)
    (v : α) : assocFind (btreeInsert l k v) k = some v := by
  induction l with
  | nil => simp [btreeInsert, assocFind]
  | cons hd tl ih =>
    obtain ⟨a, x⟩ := hd
    by_cases h1 : k < a
    · simp [btreeInsert, if_pos h1, assocFind]
    · by_cases h2 : k = a
      · subst h2
        simp [btreeInsert, if_neg h1, assocFind]
      · have h3 : ¬a = k := fun hh => h2 hh.symm
        simp [btreeInsert, if_neg h1, if_neg h2, assocFind, h3, ih]

theorem assocFind_btreeInsert_ne {α : Type} (l : List (Nat × α)) (k k' : Nat)
    (v : α) (hne : k' ≠ k) :
    assocFind (btreeInsert l k v) k' = assocFind l k' := by
  have hkk : ¬k = k' := fun h => hne h.symm
  induction l with
  | nil => simp [btreeInsert, assocFind, hkk]
  | cons hd tl ih =>
    obtain ⟨a, x⟩ := hd
    by_cases h1 : k < a
    · simp [btreeInsert, if_pos h1, assocFind, hkk]
    · by_cases h2 : k = a
      · subst h2
        simp [btreeInsert, if_neg h1, assocFind, hkk]
      · simp only [btreeInsert, if_neg h1, if_neg h2, assocFind]
        by_cases h3 : a = k'
        · simp [h3]
        · simp [h3, ih]

/-- C3: for every write-intent identity, flushing its staged fragments
concatenates the fragment payloads in ascending order of their order key
(the buffer representation stays key-sorted and `dump` concatenates it in
that iteration order), and staging a fragment at an occupied order key
replaces the old fragment while leaving other keys untouched; staging
`5` then `1` flushes the payloads in key order, and re-staging key `1`
replaces its payload in the flushed bytes. -/
theorem C3_write_order (b : WriteBuffer) (k k' : Nat) (v : List Nat)
    (hb : WriteBuffer.sortedKeys b) (hne : k' ≠ k) :
    WriteBuffer.sortedKeys (WriteBuffer.write b k v)
    ∧ assocFind (WriteBuffer.write b k v) k = some v
    ∧ assocFind (WriteBuffer.write b k v) k' = assocFind b k'
    ∧ WriteBuffer.dump (WriteBuffer.write (WriteBuffer.write [] 5 [98]) 1 [97])
        = [97, 98]
    ∧ WriteBuffer.dump
        (WriteBuffer.write (WriteBuffer.write (WriteBuffer.write [] 5 [98]) 1 [97])
          1 [65])
        = [65, 98] :=
  ⟨btreeInsert_sorted hb, assocFind_btreeInsert_self b k v,
    assocFind_btreeInsert_ne b k k' v hne, by decide, by decide⟩

/-- C3 witness: the properties evaluated at a concrete sorted buffer. -/
theorem C3_write_order_witness :
    WriteBuffer.sortedKeys (WriteBuffer.write [(2, [66])] 5 [98])
    ∧ assocFind (WriteBuffer.write [(2, [66])] 5 [98]) 5 = some [98]
    ∧ assocFind (WriteBuffer.write [(2, [66])] 5 [98]) 7
        = assocFind [(2, [66])] 7
    ∧ WriteBuffer.dump (WriteBuffer.write (WriteBuffer.write [] 5 [98]) 1 [97])
        = [97, 98]
    ∧ WriteBuffer.dump
        (WriteBuffer.write (WriteBuffer.write (WriteBuffer.write [] 5 [98]) 1 [97])
          1 [65])
        = [65, 98] :=
  C3_write_order [(2, [66])] 5 7 [98] (by decide) (by decide)

/-- C9: reset clears the identity cache, the slot map, the decoded source
arena and the cached today value (so no previously resolved id or cached
error is remembered and a file must be re-resolved), while the font
catalog with its parsed-font cells and the staged write buffers are left
unchanged. -/
theorem C9_reset_clears (w : SystemWorld) :
    (SystemWorld.reset w).hashes = []
    ∧ (SystemWorld.reset w).paths = []
    ∧ (SystemWorld.reset w).sources = []
    ∧ (SystemWorld.reset w).today = none
    ∧ (SystemWorld.reset w).fonts = w.fonts
    ∧ (SystemWorld.reset w).wpaths = w.wpaths
    ∧ (∀ p : FPath, assocFind (SystemWorld.reset w).hashes p = none)
    ∧ (∀ h : PathHash, assocFind (SystemWorld.reset w).paths h = none) :=
  ⟨rfl, rfl, rfl, rfl, rfl, rfl, fun _ => rfl, fun _ => rfl⟩

theorem FS_writeDisk_writes (fs : FS) (p : FPath) (d : List Nat) :
    (FS.writeDisk fs p d).writes = fs.writes ++ [(p, d)] := by
  unfold FS.writeDisk
  cases assocFind fs.files (FS.target fs p) <;> rfl

theorem flushGo_writes (hashes : List (FPath × FileResult PathHash)) :
    ∀ (l : List (PathHash × WriteBuffer)) (fs : FS),
    (flushGo hashes l fs).writes
      = fs.writes
        ++ l.filterMap (fun hb =>
          match findPathFor hashes hb.1 with
          | some p =>
            if WriteBuffer.isEmpty hb.2 then none
            else some (p, WriteBuffer.dump hb.2)
          | none => none) := by
  intro l
  induction l with
  | nil => intro fs; simp [flushGo]
  | cons hd tl ih =>
    intro fs
    obtain ⟨h, s⟩ := hd
    cases hfind : findPathFor hashes h with
    | none => simp [flushGo, hfind, ih]
    | some p =>
      by_cases hemp : WriteBuffer.isEmpty s = true
      · simp [flushGo, hfind, hemp, ih]
      · simp [flushGo, hfind, hemp, ih, FS_writeDisk_writes]

/-- C10: the flush step writes a staged buffer to disk exactly for those
identities that some entry of the current pass's identity cache maps a
path to with a successful result and whose buffer is non-empty; in
particular, when every staged identity is either unresolved in the
current pass or has an empty buffer, no filesystem write happens at all. -/
theorem C10_flush_targets (w : SystemWorld) (fs : FS) :
    (write w fs).writes
      = fs.writes
        ++ (WriteStorage.dump w.wpaths).filterMap (fun hb =>
          match findPathFor w.hashes hb.1 with
          | some p =>
            if WriteBuffer.isEmpty hb.2 then none
            else some (p, WriteBuffer.dump hb.2)
          | none => none)
    ∧ ((∀ hb ∈ WriteStorage.dump w.wpaths,
          findPathFor w.hashes hb.1 = none ∨ WriteBuffer.isEmpty hb.2 = true) →
        (write w fs).writes = fs.writes) := by
  constructor
  · exact flushGo_writes w.hashes (WriteStorage.dump w.wpaths) fs
  · intro hall
    rw [write, flushGo_writes w.hashes (WriteStorage.dump w.wpaths) fs]
    have : (WriteStorage.dump w.wpaths).filterMap (fun hb =>
        match findPathFor w.hashes hb.1 with
        | some p =>
          if WriteBuffer.isEmpty hb.2 then none
          else some (p, WriteBuffer.dump hb.2)
        | none => none) = [] := by
      rw [List.filterMap_eq_nil_iff]
      intro hb hmem
      rcases hall hb hmem with h | h
      · simp [h]
      · cases hfind : findPathFor w.hashes hb.1 <;> simp [h, hfind]
    simp [this]

/-- C10 witness: a stale non-empty buffer whose identity no current cache
entry resolves to produces no filesystem write. -/
theorem C10_flush_targets_witness :
    (write wStale fsB).writes = fsB.writes :=
  (C10_flush_targets wStale fsB).2 (by decide)

/-- C1 counterexample: a rename (name-modify) event is classified
relevant even though none of its paths matches the dependency state, and
a content-modify event on a path that is a raw key of the identity cache
is classified not relevant because the lookup uses the normalized path
only — both refuting the claim as stated. -/
theorem C1_counterexample :
    (SystemWorld.relevant wEmpty fsNone
        ⟨FsEventKind.modify ModifyKind.name, [paM]⟩ = true
      ∧ List.any [paM] (SystemWorld.dependant wEmpty fsNone) = false)
    ∧ (SystemWorld.relevant wRawErr fsNone
        ⟨FsEventKind.modify ModifyKind.data, [paRaw]⟩ = false
      ∧ assocFind wRawErr.hashes paRaw
          = some (Except.error FileError.notFound)) := by
  decide

/-- C1 amended: the relevance classifier returns false for pure access,
metadata-only modify, other-modify and other events; true unconditionally
for creation and rename (name-modify) events; and for content-modify
events, as well as for unclassified and remove events, it returns true
exactly when at least one path of the event matches the dependency state
of the last pass — by its normalized spelling being a key of the identity
cache, or by re-deriving a read-intent identity that is a key of the slot
map. -/
theorem C1_amended (w : SystemWorld) (fs : FS) (ps : List FPath) :
    SystemWorld.relevant w fs ⟨FsEventKind.access, ps⟩ = false
    ∧ SystemWorld.relevant w fs ⟨FsEventKind.create, ps⟩ = true
    ∧ SystemWorld.relevant w fs ⟨FsEventKind.modify ModifyKind.metadata, ps⟩ = false
    ∧ SystemWorld.relevant w fs ⟨FsEventKind.modify ModifyKind.other, ps⟩ = false
    ∧ SystemWorld.relevant w fs ⟨FsEventKind.other, ps⟩ = false
    ∧ SystemWorld.relevant w fs ⟨FsEventKind.modify ModifyKind.name, ps⟩ = true
    ∧ SystemWorld.relevant w fs ⟨FsEventKind.modify ModifyKind.data, ps⟩
        = ps.any (fun p =>
            (assocFind w.hashes (FPath.normalize p)).isSome
              || (match (PathHash.new fs p AccessMode.read).1 with
                  | Except.ok h => (assocFind w.paths h).isSome
                  | Except.error _ => false))
    ∧ SystemWorld.relevant w fs ⟨FsEventKind.any, ps⟩
        = SystemWorld.relevant w fs ⟨FsEventKind.modify ModifyKind.data, ps⟩
    ∧ SystemWorld.relevant w fs ⟨FsEventKind.remove, ps⟩
        = SystemWorld.relevant w fs ⟨FsEventKind.modify ModifyKind.data, ps⟩ := by
  refine ⟨rfl, rfl, rfl, rfl, rfl, rfl, ?_, rfl, rfl⟩
  exact congrArg ps.any (funext fun p => rfl)

/-- C2 counterexample: for the same path string within one pass, the
identity resolved under write intent after a read-intent resolution is
the identity cached by the read resolution — the two are equal, the
create/truncate step is skipped (the filesystem is unchanged), and the
file's prior content survives — refuting both the disjointness and the
always-destructive parts of the claim. -/
theorem C2_counterexample :
    (SystemWorld.slot wEmpty fsB paM).1 = Except.ok ⟨0⟩
    ∧ (SystemWorld.wslot (SystemWorld.slot wEmpty fsB paM).2.1
        (SystemWorld.slot wEmpty fsB paM).2.2 paM).1 = Except.ok ⟨0⟩
    ∧ (SystemWorld.wslot (SystemWorld.slot wEmpty fsB paM).2.1
        (SystemWorld.slot wEmpty fsB paM).2.2 paM).2.2
        = (SystemWorld.slot wEmpty fsB paM).2.2
    ∧ (assocFind fsB.files paM).map FSFile.data = some [1] := by
  decide

/-- C2 amended: read- and write-intent resolution share one identity
cache keyed by the path alone: a write-intent resolution of a path that
is already cached (under either intent) returns the cached identity and
performs no create/truncate step, while a write-intent resolution of a
fresh path naming an existing file does truncate the file and yields the
same identity that a read-intent resolution of that file yields — the two
intents do not occupy disjoint identity spaces. -/
theorem C2_amended (w : SystemWorld) (fs : FS) (p : FPath) :
    (∀ r, assocFind w.hashes p = some r →
      SystemWorld.wslot w fs p = (r, w, fs))
    ∧ (∀ f, assocFind w.hashes p = none → FPath.hasParent p = true →
        assocFind fs.files (FS.target fs p) = some f →
        (SystemWorld.wslot w fs p).1 = Except.ok ⟨f.ino⟩
        ∧ (PathHash.new fs p AccessMode.read).1 = Except.ok ⟨f.ino⟩
        ∧ assocFind (SystemWorld.wslot w fs p).2.2.files (FS.target fs p)
            = some ⟨f.ino, []⟩) := by
  constructor
  · intro r hr
    simp [SystemWorld.wslot, hr]
  · intro f hmiss hpar hf
    have hnew : PathHash.new fs p AccessMode.write
        = (Except.ok ⟨f.ino⟩,
            { fs with files := assocInsert fs.files (FS.target fs p) ⟨f.ino, []⟩ }) := by
      simp [PathHash.new, hpar, hf]
    refine ⟨?_, ?_, ?_⟩
    · simp [SystemWorld.wslot, hmiss, hnew]
    · simp [PathHash.new, hf]
    · have htgt : FS.target
          { fs with files := assocInsert fs.files (FS.target fs p) ⟨f.ino, []⟩ } p
          = FS.target fs p := rfl
      simp [SystemWorld.wslot, hmiss, hnew, htgt, assocFind_assocInsert_self]

/-- C2 amended witness: both branches evaluated at a concrete state. -/
theorem C2_amended_witness :
    SystemWorld.wslot wRawErr fsNone paRaw
        = (Except.error FileError.notFound, wRawErr, fsNone)
    ∧ (SystemWorld.wslot wEmpty fsB paM).1 = Except.ok ⟨0⟩
    ∧ (PathHash.new fsB paM AccessMode.read).1 = Except.ok ⟨0⟩
    ∧ assocFind (SystemWorld.wslot wEmpty fsB paM).2.2.files (FS.target fsB paM)
        = some ⟨0, []⟩ := by
  refine ⟨(C2_amended wRawErr fsNone paRaw).1
      (Except.error FileError.notFound) (by decide), ?_⟩
  have h := (C2_amended wEmpty fsB paM).2 ⟨0, [1]⟩ (by decide) (by decide) (by decide)
  exact h

theorem decDigitsGo_eq_digits :
    ∀ (fuel n : Nat), n ≤ fuel → decDigitsGo fuel n = Nat.digits 10 n := by
  intro fuel
  induction fuel with
  | zero =>
    intro n hn
    interval_cases n
    simp [decDigitsGo]
  | succ f ih =>
    intro n hn
    cases n with
    | zero => simp [decDigitsGo]
    | succ m =>
      rw [decDigitsGo, Nat.digits_def' (by norm_num : (1 : ℕ) < 10) (Nat.succ_pos m)]
      have hdiv : (m + 1) / 10 ≤ f := by
        have h1 : (m + 1) / 10 < m + 1 := Nat.div_lt_self (Nat.succ_pos m) (by norm_num)
        omega
      rw [ih _ hdiv]

theorem decDigits_eq_digits (n : Nat) : decDigits n = Nat.digits 10 n :=
  decDigitsGo_eq_digits n n le_rfl

theorem decDigits_length (n : Nat) (hn : n ≠ 0) :
    (decDigits n).length = Nat.log 10 n + 1 := by
  rw [decDigits_eq_digits, Nat.digits_len 10 n (by norm_num) hn]

theorem checkedIlog10_eq (n : Nat) (hn : n ≠ 0) :
    checkedIlog10 n = some (Nat.log 10 n) := by
  rw [checkedIlog10, if_neg hn, decDigits_length n hn]
  simp

theorem decStr_length (n : Nat) (hn : n ≠ 0) :
    (decStr n).length = Nat.log 10 n + 1 := by
  have : (decStr n).length = (decDigits n).length := by
    simp [decStr, String.length]
  rw [this, decDigits_length n hn]

theorem zeroPad_length (n width : Nat) :
    (zeroPad n width).length = max width (decStr n).length := by
  show (List.replicate (width - (decStr n).data.length) '0'
      ++ (decStr n).data).length = max width (decStr n).data.length
  rw [List.length_append, List.length_replicate]
  omega

/-- C7: exporting a document with more than one page to a raster path
that lacks the page-number placeholder fails with the configuration error
before any page is rendered or saved, so no output file is written. -/
theorem C7_multipage_rejection (pages : List PageFrame) (output : String)
    (render : PageFrame → List Nat) (pdf : List PageFrame → List Nat)
    (e : String) (hext : pathExtension output = some e)
    (hpng : lowerStr e = "png")
    (hnum : strContainsPat output "{n}" = false) (hlen : pages.length > 1) :
    exportDoc pages output render pdf
      = Except.error "cannot export multiple PNGs without `{n}` in output path" := by
  simp [exportDoc, hext, hpng, hnum, hlen]

/-- C7 witness: two pages to a literal png path fail with nothing written. -/
theorem C7_multipage_rejection_witness :
    exportDoc [0, 1] "out.png" (fun f => [f]) (fun _ => [])
      = Except.error "cannot export multiple PNGs without `{n}` in output path" :=
  C7_multipage_rejection [0, 1] "out.png" (fun f => [f]) (fun _ => []) "png"
    rfl rfl rfl (by norm_num)

theorem exportLoop_get (out : String) (width : Nat)
    (render : PageFrame → List Nat) :
    ∀ (pages : List PageFrame) (start i : Nat) (f : PageFrame),
      pages[i]? = some f →
      (exportLoop out true width render start pages)[i]?
        = some (strReplace out "{n}" (zeroPad (start + i + 1) width), render f) := by
  intro pages
  induction pages with
  | nil => intro start i f h; simp at h
  | cons hd tl ih =>
    intro start i f h
    cases i with
    | zero =>
      simp at h
      subst h
      simp [exportLoop]
    | succ j =>
      have h' : tl[j]? = some f := by simpa using h
      have h2 := ih (start + 1) j f h'
      have harith : start + 1 + j + 1 = start + (j + 1) + 1 := by omega
      rw [harith] at h2
      simpa [exportLoop] using h2

/-- C8: exporting n pages to a raster path carrying the placeholder
writes page i (1-based) to the path with the placeholder replaced by i
zero-padded to exactly the width the code computes, and that width is
1 + floor(log10 n), the minimum digit width of the highest page number. -/
theorem C8_png_numbering (pages : List PageFrame) (output : String)
    (render : PageFrame → List Nat) (pdf : List PageFrame → List Nat)
    (e : String) (i : Nat) (f : PageFrame)
    (hext : pathExtension output = some e) (hpng : lowerStr e = "png")
    (hnum : strContainsPat output "{n}" = true)
    (hf : pages[i]? = some f) :
    (∀ outs, exportDoc pages output render pdf = Except.ok outs →
      outs[i]? = some
        (strReplace output "{n}" (zeroPad (i + 1) (1 + Nat.log 10 pages.length)),
          render f))
    ∧ (zeroPad (i + 1) (1 + Nat.log 10 pages.length)).length
        = 1 + Nat.log 10 pages.length
    ∧ 1 + (checkedIlog10 pages.length).getD 0 = 1 + Nat.log 10 pages.length
    ∧ (decStr pages.length).length = 1 + Nat.log 10 pages.length := by
  have hipos : i < pages.length := by
    by_contra hc
    push_neg at hc
    rw [List.getElem?_eq_none hc] at hf
    exact Option.noConfusion hf
  have hlen : pages.length ≠ 0 := by omega
  have hilog := checkedIlog10_eq pages.length hlen
  refine ⟨?_, ?_, ?_, ?_⟩
  · intro outs houts
    simp only [exportDoc, hext, hpng, if_pos, hnum, hilog] at houts
    simp at houts
    have houts2 : outs
        = exportLoop output true (1 + Nat.log 10 pages.length) render 0 pages := by
      cases houts
      rfl
    subst houts2
    have h2 := exportLoop_get output (1 + Nat.log 10 pages.length) render pages 0 i f hf
    simpa using h2
  · rw [zeroPad_length]
    have h1 : (decStr (i + 1)).length = Nat.log 10 (i + 1) + 1 :=
      decStr_length _ (by omega)
    have h2 : Nat.log 10 (i + 1) ≤ Nat.log 10 pages.length :=
      Nat.log_mono_right (by omega)
    omega
  · rw [hilog]
    rfl
  · rw [decStr_length _ hlen]
    omega

/-- C8 witness: twelve pages numbered with two digits; the last page goes
to `p12.png` and the padded number fills the computed width exactly. -/
theorem C8_png_numbering_witness :
    ([("p01.png", [0]), ("p02.png", [1]), ("p03.png", [2]), ("p04.png", [3]),
      ("p05.png", [4]), ("p06.png", [5]), ("p07.png", [6]), ("p08.png", [7]),
      ("p09.png", [8]), ("p10.png", [9]), ("p11.png", [10]), ("p12.png", [11])]
        : List (String × List Nat))[11]? = some ("p12.png", [11])
    ∧ (zeroPad 12 (1 + Nat.log 10 (List.range 12).length)).length
        = 1 + Nat.log 10 (List.range 12).length := by
  have h := C8_png_numbering (List.range 12) "p{n}.png" (fun f => [f])
    (fun _ => []) "png" 11 11 rfl rfl rfl (by decide)
  refine ⟨?_, h.2.1⟩
  have hlog : Nat.log 10 (List.range 12).length = 1 := by
    rw [List.length_range]
    exact Nat.log_eq_of_pow_le_of_lt_pow (by norm_num) (by norm_num)
  have h1 := h.1
    [("p01.png", [0]), ("p02.png", [1]), ("p03.png", [2]), ("p04.png", [3]),
     ("p05.png", [4]), ("p06.png", [5]), ("p07.png", [6]), ("p08.png", [7]),
     ("p09.png", [8]), ("p10.png", [9]), ("p11.png", [10]), ("p12.png", [11])]
    (by decide)
  rw [hlog] at h1
  rw [show strReplace "p{n}.png" "{n}" (zeroPad 12 (1 + 1)) = "p12.png" from rfl]
    at h1
  exact h1

theorem pathHashNew_read_snd (fs : FS) (p : FPath) :
    (PathHash.new fs p AccessMode.read).2 = fs := by
  unfold PathHash.new
  cases assocFind fs.files (FS.target fs p) <;> rfl

theorem entryOrDefault_of_find {paths : List (PathHash × PathSlot)} {h : PathHash}
    {s : PathSlot} (hs : assocFind paths h = some s) :
    entryOrDefault paths h = paths := by
  simp [entryOrDefault, hs]

theorem entryOrDefault_of_none {paths : List (PathHash × PathSlot)} {h : PathHash}
    (hs : assocFind paths h = none) :
    entryOrDefault paths h = (h, ⟨none, none⟩) :: paths := by
  simp [entryOrDefault, hs]

theorem entryOrDefault_find (paths : List (PathHash × PathSlot)) (h : PathHash) :
    assocFind (entryOrDefault paths h) h
      = some ((assocFind paths h).getD ⟨none, none⟩) := by
  cases hf : assocFind paths h with
  | some s => simp [entryOrDefault, hf]
  | none => simp [entryOrDefault, hf, assocFind]

theorem setSlotSource_find_self {paths : List (PathHash × PathSlot)} {h : PathHash}
    {s : PathSlot} (r : FileResult Nat) (hs : assocFind paths h = some s) :
    assocFind (setSlotSource paths h r) h = some { s with source := some r } := by
  induction paths with
  | nil => simp [assocFind] at hs
  | cons hd tl ih =>
    obtain ⟨a, x⟩ := hd
    by_cases ha : a = h
    · subst ha
      simp [assocFind] at hs
      subst hs
      simp [setSlotSource, assocFind]
    · simp [assocFind, ha] at hs
      simp [setSlotSource, ha, assocFind, ih hs]

theorem slot_cached_err {w : SystemWorld} {fs : FS} {p : FPath} {e : FileError}
    (hh : assocFind w.hashes p = some (Except.error e)) :
    SystemWorld.slot w fs p = (Except.error e, w, fs) := by
  simp only [SystemWorld.slot, hh]

theorem slot_cached_ok_raw {w : SystemWorld} {fs : FS} {p : FPath} {h : PathHash}
    (hh : assocFind w.hashes p = some (Except.ok h)) :
    SystemWorld.slot w fs p
      = (Except.ok h, { w with paths := entryOrDefault w.paths h }, fs) := by
  simp only [SystemWorld.slot, hh]

theorem slot_cached_ok {w : SystemWorld} {fs : FS} {p : FPath} {h : PathHash}
    (hh : assocFind w.hashes p = some (Except.ok h))
    (hp : (assocFind w.paths h).isSome = true) :
    SystemWorld.slot w fs p = (Except.ok h, w, fs) := by
  obtain ⟨s, hs⟩ := Option.isSome_iff_exists.mp hp
  rw [slot_cached_ok_raw hh, entryOrDefault_of_find hs]

theorem resolve_cached_err {w : SystemWorld} {fs : FS} {p : FPath} {e : FileError}
    (hh : assocFind w.hashes p = some (Except.error e)) :
    SystemWorld.resolve w fs p = (Except.error e, w, fs) := by
  simp only [SystemWorld.resolve, slot_cached_err hh]

theorem resolve_of_cached {w : SystemWorld} {fs : FS} {p : FPath} {h : PathHash}
    {s : PathSlot} {res : FileResult Nat}
    (hh : assocFind w.hashes p = some (Except.ok h))
    (hs : assocFind w.paths h = some s) (hsrc : s.source = some res) :
    SystemWorld.resolve w fs p = (res, w, fs) := by
  have hcell : ((assocFind w.paths h).getD ⟨none, none⟩).source = some res := by
    rw [hs]
    exact hsrc
  simp only [SystemWorld.resolve, slot_cached_ok hh (by rw [hs]; rfl), hcell]

theorem resolve_resolve_init {w1 : SystemWorld} {fs : FS} {p : FPath}
    {h : PathHash} {s : PathSlot}
    (hh : assocFind w1.hashes p = some (Except.ok h))
    (hs : assocFind w1.paths h = some s) (hsrc : s.source = none) :
    SystemWorld.resolve (SystemWorld.resolve w1 fs p).2.1
      (SystemWorld.resolve w1 fs p).2.2 p = SystemWorld.resolve w1 fs p := by
  have hslot : SystemWorld.slot w1 fs p = (Except.ok h, w1, fs) :=
    slot_cached_ok hh (by rw [hs]; rfl)
  have hcell : ((assocFind w1.paths h).getD ⟨none, none⟩).source = none := by
    rw [hs]
    exact hsrc
  cases hcan : FS.canonicalize fs p with
  | none =>
    have h1 : SystemWorld.resolve w1 fs p
        = (Except.error FileError.notFound,
            SystemWorld.setSource w1 h (Except.error FileError.notFound), fs) := by
      simp only [SystemWorld.resolve, hslot, hcell, hcan]
    rw [h1]
    exact resolve_of_cached hh
      (setSlotSource_find_self (Except.error FileError.notFound) hs) rfl
  | some cpath =>
    cases hread : FS.read fs cpath with
    | mk rr fs2 =>
      cases rr with
      | error e =>
        have h1 : SystemWorld.resolve w1 fs p
            = (Except.error e, SystemWorld.setSource w1 h (Except.error e), fs2) := by
          simp only [SystemWorld.resolve, hslot, hcell, hcan, hread]
        rw [h1]
        exact resolve_of_cached hh (setSlotSource_find_self (Except.error e) hs) rfl
      | ok buf =>
        cases hdec : utf8Decode (bomStrip buf) with
        | none =>
          have h1 : SystemWorld.resolve w1 fs p
              = (Except.error FileError.invalidUtf8,
                  SystemWorld.setSource w1 h (Except.error FileError.invalidUtf8),
                  fs2) := by
            simp only [SystemWorld.resolve, hslot, hcell, hcan, hread, hdec]
          rw [h1]
          exact resolve_of_cached hh
            (setSlotSource_find_self (Except.error FileError.invalidUtf8) hs) rfl
        | some text =>
          have h1 : SystemWorld.resolve w1 fs p
              = (Except.ok (w1.sources.length % 65536),
                  SystemWorld.setSource
                    { w1 with sources :=
                        w1.sources ++ [⟨w1.sources.length % 65536, cpath, text⟩] }
                    h (Except.ok (w1.sources.length % 65536)),
                  fs2) := by
            simp only [SystemWorld.resolve, hslot, hcell, hcan, hread, hdec,
              SystemWorld.insert]
          rw [h1]
          exact resolve_of_cached hh
            (setSlotSource_find_self (Except.ok (w1.sources.length % 65536)) hs) rfl

theorem resolve_self_of_cached_ok (w1 : SystemWorld) (fs : FS) (p : FPath)
    (h : PathHash) (s : PathSlot)
    (hh : assocFind w1.hashes p = some (Except.ok h))
    (hs : assocFind w1.paths h = some s) :
    SystemWorld.resolve (SystemWorld.resolve w1 fs p).2.1
      (SystemWorld.resolve w1 fs p).2.2 p = SystemWorld.resolve w1 fs p := by
  cases hsrc : s.source with
  | some res =>
    have h1 := @resolve_of_cached w1 fs p h s res hh hs hsrc
    rw [h1]
    exact resolve_of_cached hh hs hsrc
  | none => exact resolve_resolve_init hh hs hsrc

theorem resolve_resolve (w : SystemWorld) (fs : FS) (p : FPath) :
    SystemWorld.resolve (SystemWorld.resolve w fs p).2.1
      (SystemWorld.resolve w fs p).2.2 p = SystemWorld.resolve w fs p := by
  cases hh : assocFind w.hashes p with
  | some r =>
    cases r with
    | error e =>
      rw [resolve_cached_err hh]
      exact resolve_cached_err hh
    | ok h =>
      cases hs : assocFind w.paths h with
      | some s => exact resolve_self_of_cached_ok w fs p h s hh hs
      | none =>
        have hslot1 : SystemWorld.slot w fs p = (Except.ok h, { w with paths := (h, ⟨none, none⟩) :: w.paths }, fs) := by
          rw [slot_cached_ok_raw hh, entryOrDefault_of_none hs]
        have hh' : assocFind ({ w with paths := (h, ⟨none, none⟩) :: w.paths } : SystemWorld).hashes p = some (Except.ok h) := hh
        have hs' : assocFind ({ w with paths := (h, ⟨none, none⟩) :: w.paths } : SystemWorld).paths h = some ⟨none, none⟩ := by
          simp [assocFind]
        have hslot2 : SystemWorld.slot { w with paths := (h, ⟨none, none⟩) :: w.paths } fs p = (Except.ok h, { w with paths := (h, ⟨none, none⟩) :: w.paths }, fs) :=
          slot_cached_ok hh' (by rw [hs']; rfl)
        have heq : SystemWorld.resolve w fs p = SystemWorld.resolve { w with paths := (h, ⟨none, none⟩) :: w.paths } fs p := by
          simp only [SystemWorld.resolve, hslot1, hslot2]
        rw [heq]
        exact resolve_self_of_cached_ok _ fs p h ⟨none, none⟩ hh' hs'
  | none =>
    cases hph : (PathHash.new fs p AccessMode.read).1 with
    | error e =>
      cases hcan : FS.canonicalize fs p with
      | none =>
        have hslot : SystemWorld.slot w fs p = (Except.error e, { w with hashes := assocInsert w.hashes p (Except.error e) }, fs) := by
          simp only [SystemWorld.slot, hh, pathHashNew_read_snd, hph, hcan]
        have h1 : SystemWorld.resolve w fs p = (Except.error e, { w with hashes := assocInsert w.hashes p (Except.error e) }, fs) := by
          simp only [SystemWorld.resolve, hslot]
        rw [h1]
        exact resolve_cached_err (assocFind_assocInsert_self _ _ _)
      | some c =>
        have hslot : SystemWorld.slot w fs p = (Except.error e, { w with hashes := assocInsert (assocInsert w.hashes (FPath.normalize c) (Except.error e)) p (Except.error e) }, fs) := by
          simp only [SystemWorld.slot, hh, pathHashNew_read_snd, hph, hcan]
        have h1 : SystemWorld.resolve w fs p = (Except.error e, { w with hashes := assocInsert (assocInsert w.hashes (FPath.normalize c) (Except.error e)) p (Except.error e) }, fs) := by
          simp only [SystemWorld.resolve, hslot]
        rw [h1]
        exact resolve_cached_err (assocFind_assocInsert_self _ _ _)
    | ok h =>
      cases hcan : FS.canonicalize fs p with
      | none =>
        have hslot : SystemWorld.slot w fs p = (Except.ok h, { w with hashes := assocInsert w.hashes p (Except.ok h), paths := entryOrDefault w.paths h }, fs) := by
          simp only [SystemWorld.slot, hh, pathHashNew_read_snd, hph, hcan]
        have hh2 : assocFind ({ w with hashes := assocInsert w.hashes p (Except.ok h), paths := entryOrDefault w.paths h } : SystemWorld).hashes p = some (Except.ok h) :=
          assocFind_assocInsert_self _ _ _
        have hs2 : assocFind ({ w with hashes := assocInsert w.hashes p (Except.ok h), paths := entryOrDefault w.paths h } : SystemWorld).paths h = some ((assocFind w.paths h).getD ⟨none, none⟩) :=
          entryOrDefault_find w.paths h
        have hslot2 : SystemWorld.slot { w with hashes := assocInsert w.hashes p (Except.ok h), paths := entryOrDefault w.paths h } fs p = (Except.ok h, { w with hashes := assocInsert w.hashes p (Except.ok h), paths := entryOrDefault w.paths h }, fs) :=
          slot_cached_ok hh2 (by rw [hs2]; rfl)
        have heq : SystemWorld.resolve w fs p = SystemWorld.resolve { w with hashes := assocInsert w.hashes p (Except.ok h), paths := entryOrDefault w.paths h } fs p := by
          simp only [SystemWorld.resolve, hslot, hslot2]
        rw [heq]
        exact resolve_self_of_cached_ok _ fs p h _ hh2 hs2
      | some c =>
        have hslot : SystemWorld.slot w fs p = (Except.ok h, { w with hashes := assocInsert (assocInsert w.hashes (FPath.normalize c) (Except.ok h)) p (Except.ok h), paths := entryOrDefault w.paths h }, fs) := by
          simp only [SystemWorld.slot, hh, pathHashNew_read_snd, hph, hcan]
        have hh2 : assocFind ({ w with hashes := assocInsert (assocInsert w.hashes (FPath.normalize c) (Except.ok h)) p (Except.ok h), paths := entryOrDefault w.paths h } : SystemWorld).hashes p = some (Except.ok h) :=
          assocFind_assocInsert_self _ _ _
        have hs2 : assocFind ({ w with hashes := assocInsert (assocInsert w.hashes (FPath.normalize c) (Except.ok h)) p (Except.ok h), paths := entryOrDefault w.paths h } : SystemWorld).paths h = some ((assocFind w.paths h).getD ⟨none, none⟩) :=
          entryOrDefault_find w.paths h
        have hslot2 : SystemWorld.slot { w with hashes := assocInsert (assocInsert w.hashes (FPath.normalize c) (Except.ok h)) p (Except.ok h), paths := entryOrDefault w.paths h } fs p = (Except.ok h, { w with hashes := assocInsert (assocInsert w.hashes (FPath.normalize c) (Except.ok h)) p (Except.ok h), paths := entryOrDefault w.paths h }, fs) :=
          slot_cached_ok hh2 (by rw [hs2]; rfl)
        have heq : SystemWorld.resolve w fs p = SystemWorld.resolve { w with hashes := assocInsert (assocInsert w.hashes (FPath.normalize c) (Except.ok h)) p (Except.ok h), paths := entryOrDefault w.paths h } fs p := by
          simp only [SystemWorld.resolve, hslot, hslot2]
        rw [heq]
        exact resolve_self_of_cached_ok _ fs p h _ hh2 hs2

theorem resolve_fresh_ok (w : SystemWorld) (fs : FS) (p : FPath) (f : FSFile)
    (t : List Nat) (hw1 : w.hashes = []) (hw2 : w.paths = [])
    (ha : assocFind fs.aliases p = none) (hn : FPath.normalize p = p)
    (hf : assocFind fs.files p = some f)
    (hdec : utf8Decode (bomStrip f.data) = some t) :
    SystemWorld.resolve w fs p
      = (Except.ok (w.sources.length % 65536),
          { w with hashes := [(p, Except.ok ⟨f.ino⟩)], paths := [(⟨f.ino⟩, ⟨some (Except.ok (w.sources.length % 65536)), none⟩)], sources := w.sources ++ [⟨w.sources.length % 65536, p, t⟩] },
          { fs with readCount := fs.readCount + 1 }) := by
  have htgt : FS.target fs p = p := by simp [FS.target, ha, hn]
  have hf' : assocFind fs.files (FS.target fs p) = some f := by
    rw [htgt]
    exact hf
  have hcan : FS.canonicalize fs p = some p := by simp [FS.canonicalize, hf', htgt, hf]
  have hph : PathHash.new fs p AccessMode.read = (Except.ok ⟨f.ino⟩, fs) := by
    simp [PathHash.new, hf']
  have hread : FS.read fs p
      = (Except.ok f.data, { fs with readCount := fs.readCount + 1 }) := by
    simp [FS.read, hf']
  have hfind : assocFind w.hashes p = none := by
    rw [hw1]
    rfl
  have hslot : SystemWorld.slot w fs p
      = (Except.ok ⟨f.ino⟩, { w with hashes := [(p, Except.ok ⟨f.ino⟩)], paths := [(⟨f.ino⟩, ⟨none, none⟩)] }, fs) := by
    simp only [SystemWorld.slot, hfind, hph, hcan, hn]
    rw [hw1, hw2]
    simp [assocInsert, entryOrDefault, assocFind]
  simp only [SystemWorld.resolve, hslot]
  simp [assocFind, hcan, hread, hdec, SystemWorld.insert, SystemWorld.setSource,
    setSlotSource]

theorem resolve_fresh_err (w : SystemWorld) (fs : FS) (p : FPath) (f : FSFile)
    (hw1 : w.hashes = []) (hw2 : w.paths = [])
    (ha : assocFind fs.aliases p = none) (hn : FPath.normalize p = p)
    (hf : assocFind fs.files p = some f)
    (hdec : utf8Decode (bomStrip f.data) = none) :
    SystemWorld.resolve w fs p
      = (Except.error FileError.invalidUtf8,
          { w with hashes := [(p, Except.ok ⟨f.ino⟩)], paths := [(⟨f.ino⟩, ⟨some (Except.error FileError.invalidUtf8), none⟩)] },
          { fs with readCount := fs.readCount + 1 }) := by
  have htgt : FS.target fs p = p := by simp [FS.target, ha, hn]
  have hf' : assocFind fs.files (FS.target fs p) = some f := by
    rw [htgt]
    exact hf
  have hcan : FS.canonicalize fs p = some p := by simp [FS.canonicalize, hf', htgt, hf]
  have hph : PathHash.new fs p AccessMode.read = (Except.ok ⟨f.ino⟩, fs) := by
    simp [PathHash.new, hf']
  have hread : FS.read fs p
      = (Except.ok f.data, { fs with readCount := fs.readCount + 1 }) := by
    simp [FS.read, hf']
  have hfind : assocFind w.hashes p = none := by
    rw [hw1]
    rfl
  have hslot : SystemWorld.slot w fs p
      = (Except.ok ⟨f.ino⟩, { w with hashes := [(p, Except.ok ⟨f.ino⟩)], paths := [(⟨f.ino⟩, ⟨none, none⟩)] }, fs) := by
    simp only [SystemWorld.slot, hfind, hph, hcan, hn]
    rw [hw1, hw2]
    simp [assocInsert, entryOrDefault, assocFind]
  simp only [SystemWorld.resolve, hslot]
  simp [assocFind, hcan, hread, hdec, SystemWorld.setSource, setSlotSource]

/-- C4: on a fresh pass state, resolving a file whose bytes start with
the UTF-8 BOM decodes the remaining bytes (the BOM is not part of the
text), and resolving a file whose BOM-stripped bytes are not valid UTF-8
fails with the InvalidUtf8 error. -/
theorem C4_bom_and_utf8 (w : SystemWorld) (fs : FS) (p : FPath) (f : FSFile)
    (hw1 : w.hashes = []) (hw2 : w.paths = [])
    (ha : assocFind fs.aliases p = none) (hn : FPath.normalize p = p)
    (hf : assocFind fs.files p = some f) :
    (∀ rest t, f.data = 0xEF :: 0xBB :: 0xBF :: rest → utf8Decode rest = some t →
      (SystemWorld.resolve w fs p).1 = Except.ok (w.sources.length % 65536)
      ∧ (SystemWorld.resolve w fs p).2.1.sources
          = w.sources ++ [⟨w.sources.length % 65536, p, t⟩])
    ∧ (utf8Decode (bomStrip f.data) = none →
      (SystemWorld.resolve w fs p).1 = Except.error FileError.invalidUtf8) := by
  constructor
  · intro rest t hdata hdec
    have hstrip : bomStrip f.data = rest := by
      rw [hdata]
      rfl
    have h1 := resolve_fresh_ok w fs p f t hw1 hw2 ha hn hf (by rw [hstrip]; exact hdec)
    rw [h1]
    exact ⟨rfl, rfl⟩
  · intro hdec
    have h1 := resolve_fresh_err w fs p f hw1 hw2 ha hn hf hdec
    rw [h1]

/-- C4 witness: a BOM followed by `"hi"` decodes to the two-code-point
text `hi`, and a lone `0xFF` byte fails with InvalidUtf8. -/
theorem C4_bom_and_utf8_witness :
    ((SystemWorld.resolve wEmpty fsM paM).1 = Except.ok 0
      ∧ (SystemWorld.resolve wEmpty fsM paM).2.1.sources = [⟨0, paM, [104, 105]⟩]
      ∧ ([104, 105] : List Nat).length = 2)
    ∧ (SystemWorld.resolve wEmpty fsBad paM).1 = Except.error FileError.invalidUtf8 := by
  constructor
  · have h := (C4_bom_and_utf8 wEmpty fsM paM ⟨0, [0xEF, 0xBB, 0xBF, 104, 105]⟩
      rfl rfl rfl (by decide) (by decide)).1 [104, 105] [104, 105] rfl (by decide)
    exact ⟨h.1, h.2, rfl⟩
  · exact (C4_bom_and_utf8 wEmpty fsBad paM ⟨0, [255]⟩
      rfl rfl rfl (by decide) (by decide)).2 (by decide)

/-- C5: two resolve calls for the same path without an intervening reset
return the same result and leave the state (including the disk read
counter and the source arena) exactly unchanged — the second call
performs no disk read; and on a fresh pass state a successful resolve
reads the underlying file from disk exactly once. -/
theorem C5_resolve_once (w : SystemWorld) (fs : FS) (p : FPath) (f : FSFile)
    (t : List Nat) (hw1 : w.hashes = []) (hw2 : w.paths = [])
    (ha : assocFind fs.aliases p = none) (hn : FPath.normalize p = p)
    (hf : assocFind fs.files p = some f)
    (hdec : utf8Decode (bomStrip f.data) = some t) :
    (∀ (w' : SystemWorld) (fs' : FS) (q : FPath),
      SystemWorld.resolve (SystemWorld.resolve w' fs' q).2.1
        (SystemWorld.resolve w' fs' q).2.2 q = SystemWorld.resolve w' fs' q)
    ∧ (SystemWorld.resolve w fs p).1 = Except.ok (w.sources.length % 65536)
    ∧ (SystemWorld.resolve w fs p).2.2.readCount = fs.readCount + 1 := by
  refine ⟨fun w' fs' q => resolve_resolve w' fs' q, ?_, ?_⟩
  · rw [resolve_fresh_ok w fs p f t hw1 hw2 ha hn hf hdec]
  · rw [resolve_fresh_ok w fs p f t hw1 hw2 ha hn hf hdec]

/-- C5 witness: on a concrete world and file the second resolve is a
strict no-op and the first resolve reads the disk exactly once. -/
theorem C5_resolve_once_witness :
    SystemWorld.resolve (SystemWorld.resolve wEmpty fsM paM).2.1
        (SystemWorld.resolve wEmpty fsM paM).2.2 paM
      = SystemWorld.resolve wEmpty fsM paM
    ∧ (SystemWorld.resolve wEmpty fsM paM).2.2.readCount = fsM.readCount + 1 := by
  have h := C5_resolve_once wEmpty fsM paM ⟨0, [0xEF, 0xBB, 0xBF, 104, 105]⟩
    [104, 105] rfl rfl rfl (by decide) (by decide) (by decide)
  exact ⟨h.1 wEmpty fsM paM, h.2.2⟩

/-- C6: when the compiler returns diagnostic errors, compile_once reports
failure and returns the post-compilation state untouched — no staged
buffer is flushed and the staged buffers are exactly those the compiler
left; when the export step fails, the error propagates before the flush
step runs; the flush of staged writes runs exactly when compilation
succeeded and the document export succeeded. -/
theorem C6_flush_gating
    (compile : SystemWorld → FS → (Except (List Nat) (List PageFrame)) × SystemWorld × FS)
    (input : FPath) (output : String) (render : PageFrame → List Nat)
    (pdf : List PageFrame → List Nat) (w : SystemWorld) (fs : FS)
    (id : Nat) (w1 : SystemWorld) (fs1 : FS)
    (hres : SystemWorld.resolve (SystemWorld.reset w) fs input = (Except.ok id, w1, fs1)) :
    (∀ errs w3 fs3, compile { w1 with main := id } fs1 = (Except.error errs, w3, fs3) →
      compileOnce compile input output render pdf w fs
        = (Except.ok false, w3, fs3, []))
    ∧ (∀ doc w3 fs3 msg, compile { w1 with main := id } fs1 = (Except.ok doc, w3, fs3) →
      exportDoc doc output render pdf = Except.error msg →
      compileOnce compile input output render pdf w fs
        = (Except.error msg, w3, fs3, []))
    ∧ (∀ doc w3 fs3 outs, compile { w1 with main := id } fs1 = (Except.ok doc, w3, fs3) →
      exportDoc doc output render pdf = Except.ok outs →
      compileOnce compile input output render pdf w fs
        = (Except.ok true, w3, write w3 fs3, outs)) := by
  refine ⟨?_, ?_, ?_⟩
  · intro errs w3 fs3 hc
    simp only [compileOnce, hres, hc]
  · intro doc w3 fs3 msg hc hex
    simp only [compileOnce, hres, hc, hex]
  · intro doc w3 fs3 outs hc hex
    simp only [compileOnce, hres, hc, hex]

/-- C6 witness: a compiler that fails with one diagnostic leaves the
staged state untouched and flushes nothing. -/
theorem C6_flush_gating_witness :
    compileOnce (fun w fs => (Except.error [1], w, fs)) paM "o.pdf"
        (fun f => [f]) (fun _ => []) wEmpty fsM
      = (Except.ok false,
          { (SystemWorld.resolve (SystemWorld.reset wEmpty) fsM paM).2.1 with main := 0 },
          (SystemWorld.resolve (SystemWorld.reset wEmpty) fsM paM).2.2, []) :=
  (C6_flush_gating (fun w fs => (Except.error [1], w, fs)) paM "o.pdf"
      (fun f => [f]) (fun _ => []) wEmpty fsM 0
      (SystemWorld.resolve (SystemWorld.reset wEmpty) fsM paM).2.1
      (SystemWorld.resolve (SystemWorld.reset wEmpty) fsM paM).2.2 rfl).1
    [1]
    { (SystemWorld.resolve (SystemWorld.reset wEmpty) fsM paM).2.1 with main := 0 }
    (SystemWorld.resolve (SystemWorld.reset wEmpty) fsM paM).2.2 rfl
